import Mathlib

/-!
Verification development for the Cortex ETL pipeline (src/app.py):
a Streamlit Bronze -> Silver -> Gold spreadsheet-cleaning app built on pandas.

Strings are modelled as lists of Unicode code points (`List Nat`), exactly
the view Python takes of `str`.  The Unicode library functions used by the
source (`str.strip`, `str.lower`, `str.isalnum`, `unicodedata.normalize('NFKD')`,
`unicodedata.combining`) are modelled on the code points the pipeline's data
exercises: full ASCII, plus the Latin-1 accented letters
A-acute, A-tilde, C-cedilla, E-acute, O-tilde (both cases), whose NFKD
decompositions are base letter + combining mark (U+0301, U+0303, U+0327).
All other code points are fixed points of the tables, which is faithful for
every character the app's column headers contain.
-/

/-- Python strings viewed as lists of Unicode code points. -/
abbrev Str := List Nat

/-- Build a `Str` from a Lean string literal (code points of its characters). -/
def pystr (s : String) : Str := s.toList.map Char.toNat

/-- Python `str.isspace` / whitespace set used by `str.strip`. -/
def pyIsSpace (c : Nat) : Bool :=
  decide (c = 32 ∨ c = 9 ∨ c = 10 ∨ c = 13 ∨ c = 11 ∨ c = 12)

/-- Python `str.isalnum` on the modelled code points: ASCII digits and
letters, plus the modelled accented Latin-1 letters. -/
def pyIsAlnum (c : Nat) : Bool :=
  decide ((48 ≤ c ∧ c ≤ 57) ∨ (65 ≤ c ∧ c ≤ 90) ∨ (97 ≤ c ∧ c ≤ 122) ∨
    c = 193 ∨ c = 195 ∨ c = 199 ∨ c = 201 ∨ c = 213 ∨
    c = 225 ∨ c = 227 ∨ c = 231 ∨ c = 233 ∨ c = 245)

/-- Python `unicodedata.combining ch != 0` for the modelled combining marks
(combining acute U+0301, combining tilde U+0303, combining cedilla U+0327). -/
def isCombining (c : Nat) : Bool :=
  decide (c = 769 ∨ c = 771 ∨ c = 807)

/-- Python `unicodedata.normalize('NFKD', ·)` per code point: the modelled
precomposed accented letters decompose into base letter + combining mark;
every other code point is NFKD-stable. -/
def nfkdChar (c : Nat) : List Nat :=
  if c = 193 then [65, 769]        -- A acute upper
  else if c = 195 then [65, 771]   -- A tilde upper
  else if c = 199 then [67, 807]   -- C cedilla upper
  else if c = 201 then [69, 769]   -- E acute upper
  else if c = 213 then [79, 771]   -- O tilde upper
  else if c = 225 then [97, 769]   -- a acute
  else if c = 227 then [97, 771]   -- a tilde
  else if c = 231 then [99, 807]   -- c cedilla
  else if c = 233 then [101, 769]  -- e acute
  else if c = 245 then [111, 771]  -- o tilde
  else [c]

/-- Python `str.lower` per code point: ASCII uppercase shifts by 32, the
modelled accented uppercase letters map to their lowercase forms, and
everything else is a fixed point. -/
def pyLower (c : Nat) : Nat :=
  if 65 ≤ c ∧ c ≤ 90 then c + 32
  else if c = 193 then 225
  else if c = 195 then 227
  else if c = 199 then 231
  else if c = 201 then 233
  else if c = 213 then 245
  else c

/-- The `.replace(' ', '_')` step of `clean_column_name` per code point. -/
def replUnderscore (c : Nat) : Nat := if c = 32 then 95 else c

/-- The filter of `clean_column_name` (src/app.py line 42):
`ch.isalnum() or ch in ['_', '-']`. -/
def cleanKeep (c : Nat) : Bool := pyIsAlnum c || c == 95 || c == 45

/-- Maps each modelled accented letter to its unaccented base letter;
identity elsewhere. -/
def toBase (c : Nat) : Nat :=
  if c = 193 then 65
  else if c = 195 then 65
  else if c = 199 then 67
  else if c = 201 then 69
  else if c = 213 then 79
  else if c = 225 then 97
  else if c = 227 then 97
  else if c = 231 then 99
  else if c = 233 then 101
  else if c = 245 then 111
  else c

/-- Python `str.strip`: drop leading and trailing whitespace. -/
def pyStrip (s : Str) : Str :=
  (((s.dropWhile pyIsSpace).reverse.dropWhile pyIsSpace)).reverse

/-- Concatenation of per-code-point expansions (used for NFKD of a string). -/
def flatMapL (f : Nat → List Nat) : List Nat → List Nat
  | [] => []
  | c :: cs => f c ++ flatMapL f cs

/-- src/app.py line 40: NFKD-normalize the string and drop combining marks. -/
def removeAccents (s : Str) : Str :=
  (flatMapL nfkdChar s).filter (fun d => !isCombining d)

/-- src/app.py lines 37-43, `clean_column_name(col, keep_accents)`:
strip, optionally remove accents via NFKD, lowercase, replace spaces with
underscores, then keep only alphanumerics, underscores and hyphens. -/
def clean_column_name (col : Str) (keep_accents : Bool) : Str :=
  (((if keep_accents then pyStrip col
     else removeAccents (pyStrip col)).map pyLower).map replUnderscore).filter
    cleanKeep

/-- True when some pair of adjacent code points are both underscores. -/
def hasConsecUnderscore : Str → Bool
  | c1 :: c2 :: rest => (c1 == 95 && c2 == 95) || hasConsecUnderscore (c2 :: rest)
  | _ => false

/-- The claimed invariant on normalized column names: only `[a-z0-9_]`,
no leading underscore, no trailing underscore, no consecutive underscores. -/
def underscoreInvariantClaim (s : Str) : Prop :=
  (∀ c ∈ clean_column_name s false,
      (97 ≤ c ∧ c ≤ 122) ∨ (48 ≤ c ∧ c ≤ 57) ∨ c = 95) ∧
  (clean_column_name s false).head? ≠ some 95 ∧
  (clean_column_name s false).getLast? ≠ some 95 ∧
  hasConsecUnderscore (clean_column_name s false) = false

/-- Modelled from the spec: the canonical marker column names the Header
Locator scans for.  The Header Locator component is not present under
src/; it is modelled from the specification text (section 4.2). -/
def markers : List Str :=
  [pystr "Endpoint Name", pystr "Endpoint Type",
   pystr "Operating System", pystr "Agent Version"]

/-- Modelled from the spec: a row is a header row when the set of its
non-empty trimmed cell values is a superset of the canonical markers. -/
def rowGood (row : List Str) : Bool :=
  markers.all (fun m => row.any (fun cell =>
    !(pyStrip cell).isEmpty && pyStrip cell == m))

/-- The predicate `rowGood` lifted to an optional row (an out-of-range row never matches). -/
def rowGoodO : Option (List Str) → Bool
  | some r => rowGood r
  | none => false

/-- Modelled from the spec: scan rows top to bottom carrying the current
index; first matching row wins, fallback index is 1. -/
def findHeaderAux : List (List Str) → Nat → Nat
  | [], _ => 1
  | r :: rs, i => if rowGood r then i else findHeaderAux rs (i + 1)

/-- Modelled from the spec: the Header Locator (spec section 4.2). -/
def find_header_row (t : List (List Str)) : Nat := findHeaderAux t 0

/-- A cell value: a string or a timestamp (dates are modelled as integers). -/
inductive Value where
  | vstr (s : Str)
  | vts (t : Int)
deriving DecidableEq

/-- A cell: a value or NA (pandas NaN/NaT). -/
abbrev Cell := Option Value

/-- A table row. -/
abbrev Row := List Cell

/-- A pandas DataFrame: named columns and rows of cells. -/
structure DataFrame where
  cols : List Str
  rows : List Row
deriving DecidableEq

/-- Cell of a row at a column position (NA when out of range). -/
def getCell (r : Row) (j : Nat) : Cell := (r[j]?).getD none

/-- Position of a column name in the frame's column list. -/
def colIndex (df : DataFrame) (name : Str) : Nat :=
  df.cols.findIdx (fun c => decide (c = name))

/-- src/app.py lines 45-48, `clean_columns`: copy the frame and rename
every column through `clean_column_name`. -/
def clean_columns (df : DataFrame) (keep_accents : Bool) : DataFrame :=
  { df with cols := df.cols.map (fun c => clean_column_name c keep_accents) }

/-- pandas `pd.to_datetime(·, errors="coerce")` on one cell, with the underlying
string-to-timestamp parse attempt abstracted as `p`: an unparsable string
or NA becomes NA, an already-parsed timestamp is kept. -/
def coerceDate (p : Str → Option Int) : Cell → Cell
  | some (Value.vstr s) => (p s).map Value.vts
  | some (Value.vts t) => some (Value.vts t)
  | none => none

/-- src/app.py lines 50-53, `parse_date_series`: both branches call
`pd.to_datetime(..., errors="coerce")`; the format/dayfirst/infer options
only select the parse attempt `p`. -/
def parse_date_series (p : Str → Option Int) (s : List Cell) : List Cell :=
  s.map (coerceDate p)

/-- ASCII digit test on a code point. -/
def isDigitCP (c : Nat) : Bool := decide (48 ≤ c ∧ c ≤ 57)

/-- Modelled from the spec: a concrete timestamp parse attempt (strict
`YYYY-MM-DD`), standing in for the pandas date parser (library code not
under src/) when instantiating theorems at concrete inputs. -/
def parse_ymd (s : Str) : Option Int :=
  match s with
  | [y1, y2, y3, y4, h1, m1, m2, h2, d1, d2] =>
    if isDigitCP y1 && isDigitCP y2 && isDigitCP y3 && isDigitCP y4 &&
        h1 == 45 && isDigitCP m1 && isDigitCP m2 && h2 == 45 &&
        isDigitCP d1 && isDigitCP d2 then
      some (Int.ofNat
        (((y1 - 48) * 1000 + (y2 - 48) * 100 + (y3 - 48) * 10 + (y4 - 48)) * 10000 +
          ((m1 - 48) * 10 + (m2 - 48)) * 100 + ((d1 - 48) * 10 + (d2 - 48))))
    else none
  | _ => none

/-- src/app.py lines 151-157: if the stripped date column name is a column
of silver, overwrite that column with the coerced parse of itself. -/
def silver_date_step (p : Str → Option Int) (df : DataFrame) (dc : Str) : DataFrame :=
  if !(pyStrip dc).isEmpty && decide (pyStrip dc ∈ df.cols) then
    { df with rows := df.rows.map (fun r =>
        r.set (colIndex df (pyStrip dc))
          (coerceDate p (getCell r (colIndex df (pyStrip dc))))) }
  else df

/-- pandas `.astype("string").str.strip()` on one cell: strings are stripped,
NA stays NA.  (Non-string cells never occur in the object-dtype columns
this is applied to in the modelled pipeline.) -/
def stripCell : Cell → Cell
  | some (Value.vstr s) => some (Value.vstr (pyStrip s))
  | c => c

/-- Column `j` has pandas object/string dtype: some cell holds a string. -/
def isObjectCol (df : DataFrame) (j : Nat) : Bool :=
  df.rows.any (fun r => match getCell r j with
    | some (Value.vstr _) => true
    | _ => false)

/-- src/app.py lines 146-148: strip every string cell of every
object/string-dtype column (rows are materialized at the frame's width). -/
def stripFrame (df : DataFrame) : DataFrame :=
  { df with rows := df.rows.map (fun r =>
      (List.range df.cols.length).map (fun j =>
        if isObjectCol df j then stripCell (getCell r j) else getCell r j)) }

/-- pandas `duplicated()` scan: walk the rows top to bottom remembering
the row values seen so far, keeping each row not seen before. -/
def dropDupSeen (seen : List Row) : List Row → List Row
  | [] => []
  | r :: rs =>
    if r ∈ seen then dropDupSeen seen rs else r :: dropDupSeen (r :: seen) rs

/-- pandas `DataFrame.drop_duplicates()` on the row list: keep the first
occurrence of each distinct row value, preserving order. -/
def drop_duplicates (l : List Row) : List Row := dropDupSeen [] l

/-- src/app.py lines 191-192: `if gold_drop_dupes: gold = gold.drop_duplicates()`. -/
def tab_gold_dedup (enabled : Bool) (df : DataFrame) : DataFrame :=
  if enabled then { df with rows := drop_duplicates df.rows } else df

/-- Specification-style rendering of "keep, for each distinct row value,
its first occurrence": keep the head, then recurse on the remaining rows
with every copy of the head removed. -/
def firstOccurrences : List Row → List Row
  | [] => []
  | r :: rs => r :: firstOccurrences (rs.filter (fun x => decide (x ≠ r)))
termination_by l => l.length
decreasing_by
  exact Nat.lt_succ_of_le (List.length_filter_le _ _)

/-- The identity key-tuple of a row under the given key columns. -/
def identityProj (df : DataFrame) (keys : List Str) (r : Row) : List Cell :=
  keys.map (fun k => getCell r (colIndex df k))

/-- The timestamp held by a row in the named column, if any. -/
def tsAt (df : DataFrame) (colName : Str) (r : Row) : Option Int :=
  match getCell r (colIndex df colName) with
  | some (Value.vts t) => some t
  | _ => none

/-- Order on optional timestamps with absent sorted before present. -/
def optTsLE (a b : Option Int) : Bool :=
  match a, b with
  | none, _ => true
  | some _, none => false
  | some x, some y => decide (x ≤ y)

/-- Row `r1` is at most as recent as `r2`: by `last_seen`, ties broken by
`last_upgrade_status_time`. -/
def recencyLE (df : DataFrame) (r1 r2 : Row) : Bool :=
  let a1 := tsAt df (pystr "last_seen") r1
  let a2 := tsAt df (pystr "last_seen") r2
  let b1 := tsAt df (pystr "last_upgrade_status_time") r1
  let b2 := tsAt df (pystr "last_upgrade_status_time") r2
  (optTsLE a1 a2 && !(a1 == a2)) || (a1 == a2 && optTsLE b1 b2)

/-- The claimed identity-key deduplication property: for a non-empty list
of key columns that all exist, the deduplicated table keeps at most one
row per distinct identity key-tuple, and the kept row is the most recent
one among the input rows sharing that identity. -/
def identityDedupClaim (df : DataFrame) (keys : List Str) : Prop :=
  keys ≠ [] → (∀ k ∈ keys, k ∈ df.cols) →
    List.Pairwise (fun r1 r2 => identityProj df keys r1 ≠ identityProj df keys r2)
        (tab_gold_dedup true df).rows ∧
    ∀ r ∈ (tab_gold_dedup true df).rows, ∀ q ∈ df.rows,
      identityProj df keys q = identityProj df keys r → recencyLE df q r = true

/-- A row with identity key `("host1", "aliasA")` and `last_seen`
2024-01-01. -/
def rowJan : Row :=
  [some (Value.vstr (pystr "host1")), some (Value.vstr (pystr "aliasA")),
   some (Value.vts 20240101)]

/-- A row with identity key `("host1", "aliasA")` and `last_seen`
2024-06-01. -/
def rowJun : Row :=
  [some (Value.vstr (pystr "host1")), some (Value.vstr (pystr "aliasA")),
   some (Value.vts 20240601)]

/-- Two rows with the same identity key `("host1", "aliasA")` and
different `last_seen` timestamps. -/
def dfDedup : DataFrame :=
  { cols := [pystr "endpoint_name", pystr "endpoint_alias", pystr "last_seen"],
    rows := [rowJan, rowJun] }

/-- The default identity key columns. -/
def dedupKeys : List Str := [pystr "endpoint_name", pystr "endpoint_alias"]

/-- pandas `df[keep]` projection (assuming all names exist). -/
def selectFrame (df : DataFrame) (keep : List Str) : DataFrame :=
  { cols := keep,
    rows := df.rows.map (fun r => keep.map (fun c => getCell r (colIndex df c))) }

/-- pandas `df[keep]`: raises `KeyError` (here: `none`) when some
requested column does not exist. -/
def pandas_select (df : DataFrame) (keep : List Str) : Option DataFrame :=
  if keep.all (fun c => decide (c ∈ df.cols)) then some (selectFrame df keep) else none

/-- pandas `df.dropna(subset=subset)` body: keep rows where every subset
column is present. -/
def dropnaFrame (df : DataFrame) (subset : List Str) : DataFrame :=
  { df with rows := df.rows.filter (fun r =>
      subset.all (fun c => (getCell r (colIndex df c)).isSome)) }

/-- pandas `df.dropna(subset=subset)`: raises `KeyError` (here: `none`)
when some subset column does not exist. -/
def pandas_dropna (df : DataFrame) (subset : List Str) : Option DataFrame :=
  if subset.all (fun c => decide (c ∈ df.cols)) then some (dropnaFrame df subset) else none

/-- src/app.py lines 185-186 and 196-197: strip the caller-supplied
names, drop empties, then silently drop names that are not columns. -/
def requestedCols (df : DataFrame) (req : List Str) : List Str :=
  ((req.map pyStrip).filter (fun c => !c.isEmpty)).filter (fun c => decide (c ∈ df.cols))

/-- src/app.py lines 184-188: gold column selection; applied only when the
filtered keep-list is non-empty. -/
def tab_gold_select (df : DataFrame) (req : List Str) : Option DataFrame :=
  if (requestedCols df req).isEmpty then some df
  else pandas_select df (requestedCols df req)

/-- src/app.py lines 195-199: gold dropna on a caller-supplied subset;
applied only when the filtered subset is non-empty. -/
def tab_gold_dropna (df : DataFrame) (req : List Str) : Option DataFrame :=
  if (requestedCols df req).isEmpty then some df
  else pandas_dropna df (requestedCols df req)

/-- pandas `series >= bound` on one cell: true only when both the cell and
the bound are timestamps (NaT compares false). -/
def cellGE (c : Cell) (b : Option Int) : Bool :=
  match c, b with
  | some (Value.vts t), some v => decide (v ≤ t)
  | _, _ => false

/-- pandas `series <= bound` on one cell (NaT compares false). -/
def cellLE (c : Cell) (b : Option Int) : Bool :=
  match c, b with
  | some (Value.vts t), some v => decide (t ≤ v)
  | _, _ => false

/-- src/app.py line 202 plus line 204: the date filter runs only when it
is enabled, the stripped name is non-empty and a column of gold, AND the
raw (unstripped) name is also a column — otherwise `gold[date_col]`
raises `KeyError`, which the `except` at line 210 swallows, leaving gold
unchanged. -/
def gold_datefilter_guard (enabled : Bool) (dc : Str) (df : DataFrame) : Bool :=
  enabled && !(pyStrip dc).isEmpty && decide (pyStrip dc ∈ df.cols) &&
    decide (dc ∈ df.cols)

/-- src/app.py line 205: in-place `pd.to_datetime(..., errors="coerce")`
of column `j`. -/
def coerceFrame (p : Str → Option Int) (df : DataFrame) (j : Nat) : DataFrame :=
  { df with rows := df.rows.map (fun r => r.set j (coerceDate p (getCell r j))) }

/-- src/app.py line 207: keep rows whose date cell is `>=` the parsed
start bound. -/
def boundGE (p : Str → Option Int) (dc ds : Str) (df : DataFrame) : DataFrame :=
  { df with rows := df.rows.filter (fun r =>
      cellGE (getCell r (colIndex df dc)) (p (pyStrip ds))) }

/-- src/app.py line 209: keep rows whose date cell is `<=` the parsed
end bound. -/
def boundLE (p : Str → Option Int) (dc de : Str) (df : DataFrame) : DataFrame :=
  { df with rows := df.rows.filter (fun r =>
      cellLE (getCell r (colIndex df dc)) (p (pyStrip de))) }

/-- src/app.py lines 202-209: the gold date-range filter (coerce the
column when it has object dtype, then apply the enabled bounds). -/
def gold_datefilter (p : Str → Option Int) (enabled : Bool) (dc ds de : Str)
    (df : DataFrame) : DataFrame :=
  if gold_datefilter_guard enabled dc df then
    let d1 := if isObjectCol df (colIndex df dc) then
        coerceFrame p df (colIndex df dc) else df
    let d2 := if !(pyStrip ds).isEmpty then boundGE p dc ds d1 else d1
    if !(pyStrip de).isEmpty then boundLE p dc de d2 else d2
  else df

/-- A gold table with a `last_seen` column whose single row has an absent
date value. -/
def dfNullSeen : DataFrame := { cols := [pystr "last_seen"], rows := [[none]] }

/-- A heap of pandas frames: Python variables are indices into it, so
in-place mutation and rebinding to a fresh object are distinguishable. -/
abbrev Store := List DataFrame

/-- The empty frame (default for a dangling reference). -/
def emptyDF : DataFrame := { cols := [], rows := [] }

/-- The frame a reference designates. -/
def readRef (st : Store) (i : Nat) : DataFrame := (st[i]?).getD emptyDF

/-- A step that allocates a new frame from the current one and rebinds the
variable to it (`df = f(df)` where `f` returns a fresh object). -/
def reAlloc (f : DataFrame → DataFrame) (si : Store × Nat) : Store × Nat :=
  (si.1 ++ [f (readRef si.1 si.2)], si.1.length)

/-- A step that mutates the referenced frame in place (`df[c] = ...`). -/
def inPlace (f : DataFrame → DataFrame) (si : Store × Nat) : Store × Nat :=
  (si.1.set si.2 (f (readRef si.1 si.2)), si.2)

/-- src/app.py line 143: `silver = clean_columns(silver, ...)` — a fresh
frame (clean_columns copies). -/
def cleanStep (ka : Bool) : Store × Nat → Store × Nat :=
  reAlloc (fun df => clean_columns df ka)

/-- src/app.py lines 146-148: the optional string-stripping pass mutates
silver in place. -/
def stripStep (enabled : Bool) (si : Store × Nat) : Store × Nat :=
  if enabled then inPlace stripFrame si else si

/-- src/app.py lines 151-157: the date-coercion pass mutates silver in
place (a column setitem). -/
def silverDateStep (p : Str → Option Int) (dc : Str) : Store × Nat → Store × Nat :=
  inPlace (fun df => silver_date_step p df dc)

/-- src/app.py lines 140-157: the silver stage — copy bronze, rename
columns, strip strings, coerce the date column. -/
def tab_silver_run (ka ss : Bool) (p : Str → Option Int) (dc : Str)
    (st : Store) (i : Nat) : Store × Nat :=
  silverDateStep p dc (stripStep ss (cleanStep ka (reAlloc id (st, i))))

/-- src/app.py lines 184-188: gold column selection rebinds gold to a
fresh frame when a non-empty valid keep-list exists. -/
def selStep (choose : List Str) (si : Store × Nat) : Store × Nat :=
  if (requestedCols (readRef si.1 si.2) choose).isEmpty then si
  else reAlloc (fun df => selectFrame df (requestedCols df choose)) si

/-- src/app.py lines 191-192: `gold = gold.drop_duplicates()` rebinds. -/
def dupStep (enabled : Bool) (si : Store × Nat) : Store × Nat :=
  if enabled then reAlloc (tab_gold_dedup true) si else si

/-- src/app.py lines 195-199: gold dropna rebinds when applicable. -/
def dropnaStep (sub : List Str) (si : Store × Nat) : Store × Nat :=
  if (requestedCols (readRef si.1 si.2) sub).isEmpty then si
  else reAlloc (fun df => dropnaFrame df (requestedCols df sub)) si

/-- src/app.py lines 204-205: the dtype coercion mutates gold in place
when the column has object dtype. -/
def coerceStepG (p : Str → Option Int) (dc : Str) (si : Store × Nat) : Store × Nat :=
  if isObjectCol (readRef si.1 si.2) (colIndex (readRef si.1 si.2) dc) then
    inPlace (fun df => coerceFrame p df (colIndex df dc)) si
  else si

/-- src/app.py lines 206-207: the start-bound filter rebinds gold. -/
def boundStepGE (p : Str → Option Int) (dc ds : Str) (si : Store × Nat) : Store × Nat :=
  if !(pyStrip ds).isEmpty then reAlloc (boundGE p dc ds) si else si

/-- src/app.py lines 208-209: the end-bound filter rebinds gold. -/
def boundStepLE (p : Str → Option Int) (dc de : Str) (si : Store × Nat) : Store × Nat :=
  if !(pyStrip de).isEmpty then reAlloc (boundLE p dc de) si else si

/-- src/app.py lines 202-209: the gold date filter on the store — coerce
in place, then apply the enabled bound filters. -/
def goldDateStep (p : Str → Option Int) (enabled : Bool) (dc ds de : Str)
    (si : Store × Nat) : Store × Nat :=
  if gold_datefilter_guard enabled dc (readRef si.1 si.2) then
    boundStepLE p dc de (boundStepGE p dc ds (coerceStepG p dc si))
  else si

/-- src/app.py lines 180-209: the gold stage — copy silver, select
columns, drop duplicates, dropna, date filter. -/
def tab_gold_run (p : Str → Option Int) (choose sub : List Str) (dup fil : Bool)
    (dc ds de : Str) (st : Store) (i : Nat) : Store × Nat :=
  goldDateStep p fil dc ds de
    (dropnaStep sub (dupStep dup (selStep choose (reAlloc id (st, i)))))

/-- A store step is safe for baseline `n` when, started at a reference at
or past the baseline in a store at least `n` long, it keeps the reference
and store past the baseline and never changes the first `n` slots. -/
def StepOK (n : Nat) (g : Store × Nat → Store × Nat) : Prop :=
  ∀ st i, n ≤ st.length → n ≤ i →
    n ≤ (g (st, i)).1.length ∧ n ≤ (g (st, i)).2 ∧
    ∀ k, k < n → readRef (g (st, i)).1 k = readRef st k

/-- A frame with one string column holding a padded value. -/
def dfPadded : DataFrame :=
  { cols := [pystr "a"], rows := [[some (Value.vstr (pystr " x "))]] }

/-- A silver frame whose `last_seen` column holds an unparsable string. -/
def dfGarbage : DataFrame :=
  { cols := [pystr "last_seen"], rows := [[some (Value.vstr (pystr "oops"))]] }

/-- A raw table whose row 3 contains the four canonical markers (plus an
extra, padded cell), below a title row, a blank row and a stray row. -/
def tblWithHeader : List (List Str) :=
  [[pystr "Cortex Report"], [], [pystr "x", pystr "y"],
   [pystr "Agent Version", pystr "Endpoint Type", pystr "Endpoint Name",
    pystr "Operating System", pystr " Extras "]]

/-- A raw table none of whose rows contains all four canonical markers. -/
def tblNoHeader : List (List Str) := [[pystr "a"], [pystr "Endpoint Name"]]

/-! ### Character-level lemmas for the Column Normalizer -/

theorem pyLower_plain (c : Nat) (h0 : ¬(65 ≤ c ∧ c ≤ 90)) (h1 : c ≠ 193)
    (h2 : c ≠ 195) (h3 : c ≠ 199) (h4 : c ≠ 201) (h5 : c ≠ 213) :
    pyLower c = c := by
  unfold pyLower
  rw [if_neg h0, if_neg h1, if_neg h2, if_neg h3, if_neg h4, if_neg h5]

theorem nfkdChar_plain (c : Nat) (h1 : c ≠ 193) (h2 : c ≠ 195) (h3 : c ≠ 199)
    (h4 : c ≠ 201) (h5 : c ≠ 213) (h6 : c ≠ 225) (h7 : c ≠ 227) (h8 : c ≠ 231)
    (h9 : c ≠ 233) (h10 : c ≠ 245) : nfkdChar c = [c] := by
  unfold nfkdChar
  rw [if_neg h1, if_neg h2, if_neg h3, if_neg h4, if_neg h5, if_neg h6,
    if_neg h7, if_neg h8, if_neg h9, if_neg h10]

theorem toBase_plain (c : Nat) (h1 : c ≠ 193) (h2 : c ≠ 195) (h3 : c ≠ 199)
    (h4 : c ≠ 201) (h5 : c ≠ 213) (h6 : c ≠ 225) (h7 : c ≠ 227) (h8 : c ≠ 231)
    (h9 : c ≠ 233) (h10 : c ≠ 245) : toBase c = c := by
  unfold toBase
  rw [if_neg h1, if_neg h2, if_neg h3, if_neg h4, if_neg h5, if_neg h6,
    if_neg h7, if_neg h8, if_neg h9, if_neg h10]

theorem pyLower_idem (c : Nat) : pyLower (pyLower c) = pyLower c := by
  by_cases h0 : 65 ≤ c ∧ c ≤ 90
  · have e : pyLower c = c + 32 := by unfold pyLower; rw [if_pos h0]
    rw [e]
    exact pyLower_plain _ (by omega) (by omega) (by omega) (by omega)
      (by omega) (by omega)
  by_cases h1 : c = 193
  · subst h1; decide
  by_cases h2 : c = 195
  · subst h2; decide
  by_cases h3 : c = 199
  · subst h3; decide
  by_cases h4 : c = 201
  · subst h4; decide
  by_cases h5 : c = 213
  · subst h5; decide
  have e : pyLower c = c := pyLower_plain c h0 h1 h2 h3 h4 h5
  rw [e]; exact e

theorem nfkd_out_stable (c d : Nat) (hd : d ∈ nfkdChar c)
    (hcomb : isCombining d = false) : nfkdChar d = [d] := by
  by_cases h1 : c = 193
  · subst h1
    have hc : d = 65 ∨ d = 769 := by simpa [nfkdChar] using hd
    rcases hc with rfl | rfl
    · decide
    · exact absurd hcomb (by decide)
  by_cases h2 : c = 195
  · subst h2
    have hc : d = 65 ∨ d = 771 := by simpa [nfkdChar] using hd
    rcases hc with rfl | rfl
    · decide
    · exact absurd hcomb (by decide)
  by_cases h3 : c = 199
  · subst h3
    have hc : d = 67 ∨ d = 807 := by simpa [nfkdChar] using hd
    rcases hc with rfl | rfl
    · decide
    · exact absurd hcomb (by decide)
  by_cases h4 : c = 201
  · subst h4
    have hc : d = 69 ∨ d = 769 := by simpa [nfkdChar] using hd
    rcases hc with rfl | rfl
    · decide
    · exact absurd hcomb (by decide)
  by_cases h5 : c = 213
  · subst h5
    have hc : d = 79 ∨ d = 771 := by simpa [nfkdChar] using hd
    rcases hc with rfl | rfl
    · decide
    · exact absurd hcomb (by decide)
  by_cases h6 : c = 225
  · subst h6
    have hc : d = 97 ∨ d = 769 := by simpa [nfkdChar] using hd
    rcases hc with rfl | rfl
    · decide
    · exact absurd hcomb (by decide)
  by_cases h7 : c = 227
  · subst h7
    have hc : d = 97 ∨ d = 771 := by simpa [nfkdChar] using hd
    rcases hc with rfl | rfl
    · decide
    · exact absurd hcomb (by decide)
  by_cases h8 : c = 231
  · subst h8
    have hc : d = 99 ∨ d = 807 := by simpa [nfkdChar] using hd
    rcases hc with rfl | rfl
    · decide
    · exact absurd hcomb (by decide)
  by_cases h9 : c = 233
  · subst h9
    have hc : d = 101 ∨ d = 769 := by simpa [nfkdChar] using hd
    rcases hc with rfl | rfl
    · decide
    · exact absurd hcomb (by decide)
  by_cases h10 : c = 245
  · subst h10
    have hc : d = 111 ∨ d = 771 := by simpa [nfkdChar] using hd
    rcases hc with rfl | rfl
    · decide
    · exact absurd hcomb (by decide)
  have e : nfkdChar c = [c] := nfkdChar_plain c h1 h2 h3 h4 h5 h6 h7 h8 h9 h10
  rw [e] at hd
  have : d = c := by simpa using hd
  subst this
  exact e

theorem nfkd_stable_pyLower (c : Nat) (h : nfkdChar c = [c]) :
    nfkdChar (pyLower c) = [pyLower c] := by
  by_cases h0 : 65 ≤ c ∧ c ≤ 90
  · have e : pyLower c = c + 32 := by unfold pyLower; rw [if_pos h0]
    rw [e]
    exact nfkdChar_plain _ (by omega) (by omega) (by omega) (by omega)
      (by omega) (by omega) (by omega) (by omega) (by omega) (by omega)
  by_cases h1 : c = 193
  · subst h1; exact absurd h (by decide)
  by_cases h2 : c = 195
  · subst h2; exact absurd h (by decide)
  by_cases h3 : c = 199
  · subst h3; exact absurd h (by decide)
  by_cases h4 : c = 201
  · subst h4; exact absurd h (by decide)
  by_cases h5 : c = 213
  · subst h5; exact absurd h (by decide)
  have e : pyLower c = c := pyLower_plain c h0 h1 h2 h3 h4 h5
  rw [e]; exact h

theorem nfkd_stable_replUnderscore (c : Nat) (h : nfkdChar c = [c]) :
    nfkdChar (replUnderscore c) = [replUnderscore c] := by
  by_cases h32 : c = 32
  · subst h32; decide
  · have e : replUnderscore c = c := by unfold replUnderscore; rw [if_neg h32]
    rw [e]; exact h

theorem lfix_replUnderscore_pyLower (c : Nat) :
    pyLower (replUnderscore (pyLower c)) = replUnderscore (pyLower c) := by
  by_cases h32 : pyLower c = 32
  · rw [h32]; decide
  · have e : replUnderscore (pyLower c) = pyLower c := by
      unfold replUnderscore; rw [if_neg h32]
    rw [e]; exact pyLower_idem c

theorem cleanKeep_not_space (c : Nat) (h : cleanKeep c = true) :
    pyIsSpace c = false := by
  simp only [cleanKeep, pyIsAlnum, Bool.or_eq_true, beq_iff_eq,
    decide_eq_true_eq] at h
  simp only [pyIsSpace, decide_eq_false_iff_not]
  omega

theorem cleanKeep_not_comb (c : Nat) (h : cleanKeep c = true) :
    isCombining c = false := by
  simp only [cleanKeep, pyIsAlnum, Bool.or_eq_true, beq_iff_eq,
    decide_eq_true_eq] at h
  simp only [isCombining, decide_eq_false_iff_not]
  omega

theorem cleanKeep_ne32 (c : Nat) (h : cleanKeep c = true) : c ≠ 32 := by
  simp only [cleanKeep, pyIsAlnum, Bool.or_eq_true, beq_iff_eq,
    decide_eq_true_eq] at h
  omega

/-! ### List-level helper lemmas -/

theorem dropWhile_eq_self_of {p : Nat → Bool} {s : List Nat}
    (h : ∀ c ∈ s, p c = false) : s.dropWhile p = s := by
  cases s with
  | nil => rfl
  | cons a as => simp [List.dropWhile_cons, h a (by simp)]

theorem strip_eq_self_of {s : Str} (h : ∀ c ∈ s, pyIsSpace c = false) :
    pyStrip s = s := by
  unfold pyStrip
  rw [dropWhile_eq_self_of h,
    dropWhile_eq_self_of (fun c hc => h c (List.mem_reverse.mp hc)),
    List.reverse_reverse]

theorem map_eq_self_of {f : Nat → Nat} : ∀ {s : List Nat},
    (∀ c ∈ s, f c = c) → s.map f = s := by
  intro s h
  induction s with
  | nil => rfl
  | cons a as ih =>
    simp only [List.map_cons, h a (by simp), List.cons.injEq, true_and]
    exact ih (fun c hc => h c (by simp [hc]))

theorem filter_eq_self_of {p : Nat → Bool} : ∀ {s : List Nat},
    (∀ c ∈ s, p c = true) → s.filter p = s := by
  intro s h
  induction s with
  | nil => rfl
  | cons a as ih =>
    simp only [List.filter_cons, h a (by simp), if_true]
    exact congrArg (a :: ·) (ih (fun c hc => h c (by simp [hc])))

theorem mem_flatMapL {f : Nat → List Nat} : ∀ {s : List Nat} {d : Nat},
    d ∈ flatMapL f s → ∃ c ∈ s, d ∈ f c := by
  intro s
  induction s with
  | nil => intro d hd; exact absurd hd (by simp [flatMapL])
  | cons a as ih =>
    intro d hd
    rcases List.mem_append.mp hd with h | h
    · exact ⟨a, by simp, h⟩
    · obtain ⟨c, hc, hdc⟩ := ih h
      exact ⟨c, by simp [hc], hdc⟩

theorem flatMapL_eq_self {f : Nat → List Nat} : ∀ {s : List Nat},
    (∀ c ∈ s, f c = [c]) → flatMapL f s = s := by
  intro s h
  induction s with
  | nil => rfl
  | cons a as ih =>
    show f a ++ flatMapL f as = a :: as
    rw [h a (by simp), ih (fun c hc => h c (by simp [hc]))]
    rfl

theorem flatMapL_map (f : Nat → List Nat) (g : Nat → Nat) :
    ∀ s : List Nat, flatMapL f (s.map g) = flatMapL (fun c => f (g c)) s := by
  intro s
  induction s with
  | nil => rfl
  | cons a as ih => simp only [List.map_cons, flatMapL, ih]

theorem flatMapL_congr {f g : Nat → List Nat} : ∀ {s : List Nat},
    (∀ c ∈ s, f c = g c) → flatMapL f s = flatMapL g s := by
  intro s h
  induction s with
  | nil => rfl
  | cons a as ih =>
    show f a ++ flatMapL f as = g a ++ flatMapL g as
    rw [h a (by simp), ih (fun c hc => h c (by simp [hc]))]

theorem flatMapL_filter (f : Nat → List Nat) (p : Nat → Bool) :
    ∀ s : List Nat,
      (flatMapL f s).filter p = flatMapL (fun c => (f c).filter p) s := by
  intro s
  induction s with
  | nil => rfl
  | cons a as ih =>
    show (f a ++ flatMapL f as).filter p = _
    rw [List.filter_append, ih]
    rfl

/-! ### removeAccents lemmas -/

theorem removeAccents_chars {s : Str} {d : Nat} (hd : d ∈ removeAccents s) :
    nfkdChar d = [d] ∧ isCombining d = false := by
  unfold removeAccents at hd
  have h1 := List.mem_filter.mp hd
  have hcomb : isCombining d = false := by simpa using h1.2
  obtain ⟨c, _, hdc⟩ := mem_flatMapL h1.1
  exact ⟨nfkd_out_stable c d hdc hcomb, hcomb⟩

theorem removeAccents_eq_self {s : Str}
    (h : ∀ c ∈ s, nfkdChar c = [c] ∧ isCombining c = false) :
    removeAccents s = s := by
  unfold removeAccents
  rw [flatMapL_eq_self (fun c hc => (h c hc).1)]
  exact filter_eq_self_of (fun c hc => by simp [(h c hc).2])

/-! ### Main character facts about clean_column_name -/

theorem clean_chars (s : Str) (ka : Bool) (c : Nat)
    (hc : c ∈ clean_column_name s ka) :
    cleanKeep c = true ∧ pyLower c = c ∧
      (ka = false → nfkdChar c = [c]) := by
  unfold clean_column_name at hc
  obtain ⟨hmem, hkeep⟩ := List.mem_filter.mp hc
  obtain ⟨y, hy, rfl⟩ := List.mem_map.mp hmem
  obtain ⟨b, hb, rfl⟩ := List.mem_map.mp hy
  refine ⟨hkeep, lfix_replUnderscore_pyLower b, ?_⟩
  intro hka
  subst hka
  rw [if_neg Bool.false_ne_true] at hb
  exact nfkd_stable_replUnderscore _
    (nfkd_stable_pyLower _ (removeAccents_chars hb).1)

/-! ### Claims about the Column Normalizer -/

/-- Claim C2, as stated, is false: the source's `clean_column_name` keeps
hyphens and existing underscores verbatim and never collapses repeated
underscores, so the input "_a  b-_" normalizes to "_a__b-_", which has a
leading underscore, a trailing underscore, consecutive underscores and a
character outside [a-z0-9_]. -/
theorem clean_column_charset_claim_false :
    ¬ underscoreInvariantClaim (pystr "_a  b-_") := by
  unfold underscoreInvariantClaim
  decide

/-- Claim C2 (amended): every output character of the Column Normalizer is
alphanumeric, an underscore or a hyphen, and is fixed by lowercasing (no
uppercase survives); leading, trailing or repeated underscores may occur. -/
theorem clean_column_charset_amended (s : Str) (ka : Bool) (c : Nat)
    (hc : c ∈ clean_column_name s ka) :
    cleanKeep c = true ∧ pyLower c = c :=
  ⟨(clean_chars s ka c hc).1, (clean_chars s ka c hc).2.1⟩

/-- Witness for the amended claim C2 at the concrete input "Ab". -/
theorem clean_column_charset_amended_witness :
    97 ∈ clean_column_name (pystr "Ab") false ∧
      (cleanKeep 97 = true ∧ pyLower 97 = 97) :=
  ⟨by decide, clean_column_charset_amended (pystr "Ab") false 97 (by decide)⟩

/-- Claim C5: the Column Normalizer is idempotent — normalizing its own
output (with the same accent setting) returns it unchanged. -/
theorem clean_column_name_idempotent (s : Str) (ka : Bool) :
    clean_column_name (clean_column_name s ka) ka = clean_column_name s ka := by
  have hch : ∀ c ∈ clean_column_name s ka,
      cleanKeep c = true ∧ pyLower c = c ∧ (ka = false → nfkdChar c = [c]) :=
    fun c hc => clean_chars s ka c hc
  set y := clean_column_name s ka with hy
  rw [clean_column_name]
  have hstrip : pyStrip y = y :=
    strip_eq_self_of (fun c hc => cleanKeep_not_space c (hch c hc).1)
  have hacc : (if ka then pyStrip y else removeAccents (pyStrip y)) = y := by
    cases ka with
    | false =>
      rw [if_neg Bool.false_ne_true, hstrip]
      exact removeAccents_eq_self (fun c hc =>
        ⟨(hch c hc).2.2 rfl, cleanKeep_not_comb c (hch c hc).1⟩)
    | true => rw [if_pos rfl]; exact hstrip
  rw [hacc, map_eq_self_of (fun c hc => (hch c hc).2.1),
    map_eq_self_of (fun c hc => by
      unfold replUnderscore; rw [if_neg (cleanKeep_ne32 c (hch c hc).1)])]
  exact filter_eq_self_of (fun c hc => (hch c hc).1)

/-! ### Accent handling (claim C8) -/

theorem pyIsSpace_toBase (c : Nat) : pyIsSpace (toBase c) = pyIsSpace c := by
  by_cases h1 : c = 193
  · subst h1; decide
  by_cases h2 : c = 195
  · subst h2; decide
  by_cases h3 : c = 199
  · subst h3; decide
  by_cases h4 : c = 201
  · subst h4; decide
  by_cases h5 : c = 213
  · subst h5; decide
  by_cases h6 : c = 225
  · subst h6; decide
  by_cases h7 : c = 227
  · subst h7; decide
  by_cases h8 : c = 231
  · subst h8; decide
  by_cases h9 : c = 233
  · subst h9; decide
  by_cases h10 : c = 245
  · subst h10; decide
  rw [toBase_plain c h1 h2 h3 h4 h5 h6 h7 h8 h9 h10]

theorem nfkdFilter_toBase (c : Nat) :
    (nfkdChar (toBase c)).filter (fun d => !isCombining d) =
      (nfkdChar c).filter (fun d => !isCombining d) := by
  by_cases h1 : c = 193
  · subst h1; decide
  by_cases h2 : c = 195
  · subst h2; decide
  by_cases h3 : c = 199
  · subst h3; decide
  by_cases h4 : c = 201
  · subst h4; decide
  by_cases h5 : c = 213
  · subst h5; decide
  by_cases h6 : c = 225
  · subst h6; decide
  by_cases h7 : c = 227
  · subst h7; decide
  by_cases h8 : c = 231
  · subst h8; decide
  by_cases h9 : c = 233
  · subst h9; decide
  by_cases h10 : c = 245
  · subst h10; decide
  rw [toBase_plain c h1 h2 h3 h4 h5 h6 h7 h8 h9 h10]

theorem dropWhile_map_space {f : Nat → Nat}
    (hp : ∀ c, pyIsSpace (f c) = pyIsSpace c) :
    ∀ l : List Nat,
      (l.map f).dropWhile pyIsSpace = (l.dropWhile pyIsSpace).map f := by
  intro l
  induction l with
  | nil => rfl
  | cons a as ih =>
    rw [List.map_cons, List.dropWhile_cons, List.dropWhile_cons, hp a]
    cases h : pyIsSpace a with
    | false => simp
    | true => simpa using ih

theorem strip_map_space {f : Nat → Nat}
    (hp : ∀ c, pyIsSpace (f c) = pyIsSpace c) (l : Str) :
    pyStrip (l.map f) = (pyStrip l).map f := by
  unfold pyStrip
  rw [dropWhile_map_space hp, ← List.map_reverse, dropWhile_map_space hp,
    ← List.map_reverse]

theorem removeAccents_map_toBase (l : Str) :
    removeAccents (l.map toBase) = removeAccents l := by
  unfold removeAccents
  rw [flatMapL_filter, flatMapL_filter, flatMapL_map]
  exact flatMapL_congr (fun c _ => nfkdFilter_toBase c)

/-- Claim C8: with accent preservation disabled, the Column Normalizer
treats every accented letter exactly as its unaccented base letter (the
accent is removed, the letter is neither deleted nor replaced by an
underscore); in particular "Região" normalizes to "regiao". -/
theorem accent_letters_map_to_base :
    (∀ s : Str, clean_column_name (s.map toBase) false = clean_column_name s false)
    ∧ clean_column_name (pystr "Região") false = pystr "regiao" := by
  constructor
  · intro s
    unfold clean_column_name
    rw [if_neg Bool.false_ne_true, if_neg Bool.false_ne_true,
      strip_map_space pyIsSpace_toBase, removeAccents_map_toBase]
  · decide

/-! ### Header Locator (claim C3) -/

theorem findHeaderAux_first (t : List (List Str)) : ∀ (k i : Nat),
    rowGoodO t[i]? = true → (∀ j, j < i → rowGoodO t[j]? = false) →
    findHeaderAux t k = k + i := by
  induction t with
  | nil => intro k i hi _; exact absurd hi (by simp [rowGoodO])
  | cons r rs ih =>
    intro k i hi hmin
    cases i with
    | zero =>
      have hr : rowGood r = true := by simpa [rowGoodO] using hi
      simp [findHeaderAux, hr]
    | succ n =>
      have hr : rowGood r = false := by
        have := hmin 0 (Nat.succ_pos n)
        simpa [rowGoodO] using this
      rw [findHeaderAux, if_neg (by simp [hr])]
      have := ih (k + 1) n (by simpa using hi)
        (fun j hj => by simpa using hmin (j + 1) (Nat.succ_lt_succ hj))
      omega

theorem findHeaderAux_fallback (t : List (List Str)) : ∀ (k : Nat),
    (∀ j, j < t.length → rowGoodO t[j]? = false) →
    findHeaderAux t k = 1 := by
  induction t with
  | nil => intro k _; rfl
  | cons r rs ih =>
    intro k h
    have hr : rowGood r = false := by
      have := h 0 (by simp)
      simpa [rowGoodO] using this
    rw [findHeaderAux, if_neg (by simp [hr])]
    exact ih (k + 1) (fun j hj => by
      simpa using h (j + 1) (by simpa using Nat.succ_lt_succ hj))

/-- Claim C3: the Header Locator returns the index of the topmost row whose
set of non-empty trimmed cell values contains all four canonical marker
names, and returns the fixed fallback index 1 when no row qualifies. -/
theorem header_locator_first_match_or_fallback (t : List (List Str)) (i : Nat) :
    (rowGoodO t[i]? = true → (∀ j, j < i → rowGoodO t[j]? = false) →
      find_header_row t = i) ∧
    ((∀ j, j < t.length → rowGoodO t[j]? = false) → find_header_row t = 1) :=
  ⟨fun hi hmin => by simpa using findHeaderAux_first t 0 i hi hmin,
   fun h => findHeaderAux_fallback t 0 h⟩

/-- Witness for claim C3: a table whose row 3 holds the four markers (in a
different order, trimmed, with extras) yields 3; a table with no marker
row yields the fallback 1. -/
theorem header_locator_witness :
    find_header_row tblWithHeader = 3 ∧ find_header_row tblNoHeader = 1 :=
  ⟨(header_locator_first_match_or_fallback tblWithHeader 3).1 (by decide)
      (by decide),
   (header_locator_first_match_or_fallback tblNoHeader 0).2 (by decide)⟩

/-! ### Deduplication lemmas (claims C1 and C9) -/

theorem dropDupSeen_mem (l : List Row) : ∀ (seen : List Row) (r : Row),
    r ∈ dropDupSeen seen l ↔ r ∈ l ∧ r ∉ seen := by
  induction l with
  | nil => intro seen r; simp [dropDupSeen]
  | cons a as ih =>
    intro seen r
    rw [dropDupSeen]
    by_cases ha : a ∈ seen
    · rw [if_pos ha, ih seen r, List.mem_cons]
      by_cases hra : r = a
      · subst hra; tauto
      · tauto
    · rw [if_neg ha, List.mem_cons, ih (a :: seen) r, List.mem_cons,
        List.mem_cons]
      by_cases hra : r = a
      · subst hra; tauto
      · tauto

theorem dropDupSeen_nodup (l : List Row) : ∀ seen : List Row,
    (dropDupSeen seen l).Nodup := by
  induction l with
  | nil => intro seen; simp [dropDupSeen]
  | cons a as ih =>
    intro seen
    rw [dropDupSeen]
    by_cases ha : a ∈ seen
    · rw [if_pos ha]; exact ih seen
    · rw [if_neg ha]
      refine List.nodup_cons.mpr ⟨?_, ih (a :: seen)⟩
      intro hmem
      exact ((dropDupSeen_mem as (a :: seen) a).mp hmem).2 (by simp)

theorem dropDupSeen_sublist (l : List Row) : ∀ seen : List Row,
    (dropDupSeen seen l).Sublist l := by
  induction l with
  | nil => intro seen; simp [dropDupSeen]
  | cons a as ih =>
    intro seen
    rw [dropDupSeen]
    by_cases ha : a ∈ seen
    · rw [if_pos ha]
      exact (ih seen).trans (List.sublist_cons_self a as)
    · rw [if_neg ha]
      exact List.Sublist.cons₂ a (ih (a :: seen))

theorem decide_notmem_cons (a x : Row) (seen : List Row) :
    (decide (x ≠ a) && decide (x ∉ seen)) = decide (x ∉ a :: seen) := by
  by_cases h1 : x ∈ seen <;> by_cases h2 : x = a <;>
    simp [h1, h2, List.mem_cons]

theorem dropDupSeen_eq_firstOccurrences (n : Nat) : ∀ (l seen : List Row),
    l.length ≤ n →
    dropDupSeen seen l = firstOccurrences (l.filter (fun x => decide (x ∉ seen))) := by
  induction n with
  | zero =>
    intro l seen hl
    have hnil : l = [] := List.length_eq_zero.mp (Nat.le_zero.mp hl)
    subst hnil
    simp [dropDupSeen, firstOccurrences]
  | succ n ih =>
    intro l seen hl
    cases l with
    | nil => simp [dropDupSeen, firstOccurrences]
    | cons a as =>
      have has : as.length ≤ n := by simp at hl; omega
      rw [dropDupSeen]
      by_cases ha : a ∈ seen
      · rw [if_pos ha]
        have hda : decide (a ∉ seen) = false := by simp [ha]
        rw [List.filter_cons, hda]
        simp only [Bool.false_eq_true, if_false]
        exact ih as seen has
      · rw [if_neg ha]
        have hda : decide (a ∉ seen) = true := by simp [ha]
        rw [List.filter_cons, hda, if_pos rfl, firstOccurrences]
        congr 1
        rw [ih as (a :: seen) has]
        congr 1
        rw [List.filter_filter]
        exact (List.filter_congr (fun x _ => decide_notmem_cons a x seen)).symm


/-- Claim C9: duplicate removal keeps, for each distinct row value, its
first occurrence in the existing row order, and the retained rows keep
their relative order (the output is a sublist of the input). -/
theorem drop_duplicates_keeps_first_in_order (df : DataFrame) :
    (tab_gold_dedup true df).rows = firstOccurrences df.rows ∧
    (tab_gold_dedup true df).rows.Sublist df.rows := by
  have hr : (tab_gold_dedup true df).rows = dropDupSeen [] df.rows := by
    rw [tab_gold_dedup, if_pos rfl]
    rfl
  constructor
  · rw [hr, dropDupSeen_eq_firstOccurrences df.rows.length df.rows [] le_rfl]
    congr 1
    exact List.filter_eq_self.mpr (fun x _ => by simp)
  · rw [hr]
    exact dropDupSeen_sublist df.rows []

/-- Claim C1, as stated, is false on the code: the gold deduplication is a
whole-row `drop_duplicates()`, so the two rows sharing identity key
`("host1", "aliasA")` but holding different `last_seen` timestamps both
survive — the deduplicated table has two rows with that identity. -/
theorem dedup_identity_claim_false : ¬ identityDedupClaim dfDedup dedupKeys := by
  intro h
  obtain ⟨hpw, _⟩ := h (by decide) (by decide)
  have hr : (tab_gold_dedup true dfDedup).rows = [rowJan, rowJun] := by decide
  rw [hr] at hpw
  have h12 := (List.pairwise_cons.mp hpw).1 rowJun (by simp)
  exact h12 (by decide)

/-- Claim C1 (amended): deduplication leaves at most one row per distinct
whole-row value — the output rows are pairwise distinct and consist of
exactly the distinct input row values; rows that share an identity
key-tuple but differ in any other column are all retained. -/
theorem dedup_exact_row_semantics (df : DataFrame) :
    (tab_gold_dedup true df).rows.Nodup ∧
    ∀ r : Row, r ∈ (tab_gold_dedup true df).rows ↔ r ∈ df.rows := by
  have hr : (tab_gold_dedup true df).rows = dropDupSeen [] df.rows := by
    rw [tab_gold_dedup, if_pos rfl]
    rfl
  rw [hr]
  exact ⟨dropDupSeen_nodup df.rows [], fun r => by
    rw [dropDupSeen_mem df.rows [] r]; simp⟩

/-! ### Date coercion (claim C4) -/

/-- Claim C4: when the silver date step applies to a column, a cell that is
empty (NA) or whose string fails to parse never raises — it becomes absent
in that row only: the row count is unchanged, the row is still present at
its index, its date field is NA, and all its other fields are untouched. -/
theorem date_coercion_unparsable_absent (p : Str → Option Int) (df : DataFrame)
    (dc : Str) (i : Nat) (r : Row)
    (hguard : (pyStrip dc).isEmpty = false ∧ pyStrip dc ∈ df.cols)
    (hr : df.rows[i]? = some r)
    (hbad : getCell r (colIndex df (pyStrip dc)) = none ∨
      ∃ s, getCell r (colIndex df (pyStrip dc)) = some (Value.vstr s) ∧ p s = none) :
    (silver_date_step p df dc).rows.length = df.rows.length ∧
    ∃ q : Row, (silver_date_step p df dc).rows[i]? = some q ∧
      getCell q (colIndex df (pyStrip dc)) = none ∧
      ∀ j, j ≠ colIndex df (pyStrip dc) → getCell q j = getCell r j := by
  have hg : (!(pyStrip dc).isEmpty && decide (pyStrip dc ∈ df.cols)) = true := by
    simp [hguard.1, hguard.2]
  unfold silver_date_step
  rw [if_pos hg]
  have hv : coerceDate p (getCell r (colIndex df (pyStrip dc))) = none := by
    rcases hbad with h | ⟨s, hs, hps⟩
    · rw [h]
      rfl
    · rw [hs]
      simp [coerceDate, hps]
  refine ⟨by simp, ⟨r.set (colIndex df (pyStrip dc))
      (coerceDate p (getCell r (colIndex df (pyStrip dc)))), ?_, ?_, ?_⟩⟩
  · simp only [List.getElem?_map, hr, Option.map_some']
  · by_cases hjr : colIndex df (pyStrip dc) < r.length
    · unfold getCell at hv ⊢
      rw [List.getElem?_set_self hjr]
      simpa using hv
    · rw [List.set_eq_of_length_le (Nat.le_of_not_lt hjr)]
      unfold getCell
      rw [List.getElem?_eq_none (Nat.le_of_not_lt hjr)]
      rfl
  · intro j hj
    unfold getCell
    rw [List.getElem?_set_ne (Ne.symm hj)]

/-- Witness for claim C4: a frame whose `last_seen` cell holds the
unparsable string "oops" keeps its single row, with the date field NA. -/
theorem date_coercion_unparsable_absent_witness :
    (silver_date_step parse_ymd dfGarbage (pystr "last_seen")).rows.length =
      dfGarbage.rows.length ∧
    ∃ q : Row,
      (silver_date_step parse_ymd dfGarbage (pystr "last_seen")).rows[0]? = some q ∧
      getCell q (colIndex dfGarbage (pyStrip (pystr "last_seen"))) = none ∧
      ∀ j, j ≠ colIndex dfGarbage (pyStrip (pystr "last_seen")) →
        getCell q j = getCell [some (Value.vstr (pystr "oops"))] j :=
  date_coercion_unparsable_absent parse_ymd dfGarbage (pystr "last_seen") 0
    [some (Value.vstr (pystr "oops"))] (by decide) (by decide)
    (Or.inr ⟨pystr "oops", by decide, by decide⟩)

/-! ### Caller-supplied column lists (claim C6) -/

theorem requestedCols_all_mem (df : DataFrame) (req : List Str) :
    (requestedCols df req).all (fun c => decide (c ∈ df.cols)) = true := by
  rw [List.all_eq_true]
  intro x hx
  unfold requestedCols at hx
  exact (List.mem_filter.mp hx).2

/-- Claim C6: the caller-supplied column-name lists of the gold stage (the
column selection and the dropna subset) are silently filtered against the
table's actual columns before use, so the underlying pandas operations are
always handed existing columns and never raise. -/
theorem caller_column_lists_never_error (df : DataFrame) (req sub : List Str) :
    (tab_gold_select df req).isSome ∧ (tab_gold_dropna df sub).isSome := by
  constructor
  · unfold tab_gold_select
    by_cases h : (requestedCols df req).isEmpty = true
    · rw [if_pos h]; rfl
    · rw [if_neg h]
      unfold pandas_select
      rw [if_pos (requestedCols_all_mem df req)]
      rfl
  · unfold tab_gold_dropna
    by_cases h : (requestedCols df sub).isEmpty = true
    · rw [if_pos h]; rfl
    · rw [if_neg h]
      unfold pandas_dropna
      rw [if_pos (requestedCols_all_mem df sub)]
      rfl

/-! ### Gold date filter on a padded column name (claim C10) -/

/-- Claim C10 fails on the code for a date-column name that differs from
its stripped form: the guard at src/app.py line 202 checks
`date_col.strip() in gold.columns` but line 204 then indexes
`gold[date_col]` with the raw name, raising `KeyError`, which the
`except` at line 210 swallows.  With the filter enabled, a non-empty
start bound, `date_col = " last_seen "` and a gold table whose `last_seen`
cell is absent, the filter silently does nothing and the absent-date row
is retained rather than excluded. -/
theorem date_filter_whitespace_name_skips_filter :
    gold_datefilter parse_ymd true (pystr " last_seen ") (pystr "2024-01-01")
        (pystr "") dfNullSeen = dfNullSeen ∧
    dfNullSeen.rows = [[none]] := by
  constructor
  · decide
  · rfl

/-! ### Frame preservation across pipeline stages (claims C7) -/

theorem readRef_append (st l : Store) (k : Nat) (hk : k < st.length) :
    readRef (st ++ l) k = readRef st k := by
  unfold readRef
  rw [List.getElem?_append, if_pos hk]

theorem stepOK_reAlloc (n : Nat) (f : DataFrame → DataFrame) : StepOK n (reAlloc f) := by
  intro st i hlen hi
  refine ⟨?_, hlen, ?_⟩
  · show n ≤ (st ++ [f (readRef st i)]).length
    simp
    omega
  · intro k hk
    exact readRef_append st _ k (lt_of_lt_of_le hk hlen)

theorem stepOK_inPlace (n : Nat) (f : DataFrame → DataFrame) : StepOK n (inPlace f) := by
  intro st i hlen hi
  refine ⟨?_, hi, ?_⟩
  · show n ≤ (st.set i (f (readRef st i))).length
    simpa using hlen
  · intro k hk
    show readRef (st.set i (f (readRef st i))) k = readRef st k
    unfold readRef
    rw [List.getElem?_set_ne (by omega)]

theorem stepOK_id (n : Nat) : StepOK n id :=
  fun _ _ hlen hi => ⟨hlen, hi, fun _ _ => rfl⟩

theorem stepOK_comp (n : Nat) (g1 g2 : Store × Nat → Store × Nat)
    (h1 : StepOK n g1) (h2 : StepOK n g2) :
    StepOK n (fun si => g2 (g1 si)) := by
  intro st i hlen hi
  obtain ⟨ha, hb, hc⟩ := h1 st i hlen hi
  obtain ⟨hd, he, hf⟩ := h2 (g1 (st, i)).1 (g1 (st, i)).2 ha hb
  exact ⟨hd, he, fun k hk => (hf k hk).trans (hc k hk)⟩

theorem stepOK_ite (n : Nat) (b : Bool) (g : Store × Nat → Store × Nat)
    (hg : StepOK n g) : StepOK n (fun si => if b then g si else si) := by
  intro st i hlen hi
  dsimp only
  by_cases hb : b = true
  · rw [if_pos hb]
    exact hg st i hlen hi
  · rw [if_neg hb]
    exact ⟨hlen, hi, fun _ _ => rfl⟩

theorem stepOK_iteF (n : Nat) (q : Store × Nat → Bool)
    (g1 g2 : Store × Nat → Store × Nat) (h1 : StepOK n g1) (h2 : StepOK n g2) :
    StepOK n (fun si => if q si then g1 si else g2 si) := by
  intro st i hlen hi
  dsimp only
  by_cases hb : q (st, i) = true
  · rw [if_pos hb]
    exact h1 st i hlen hi
  · rw [if_neg hb]
    exact h2 st i hlen hi

theorem stepOK_silver (n : Nat) (ka ss : Bool) (p : Str → Option Int) (dc : Str) :
    StepOK n (fun si => silverDateStep p dc (stripStep ss (cleanStep ka si))) := by
  refine stepOK_comp n _ _ (stepOK_comp n _ _ ?_ ?_) ?_
  · exact stepOK_reAlloc n _
  · exact stepOK_ite n ss (inPlace stripFrame) (stepOK_inPlace n _)
  · exact stepOK_inPlace n _

theorem stepOK_gold (n : Nat) (p : Str → Option Int) (choose sub : List Str)
    (dup fil : Bool) (dc ds de : Str) :
    StepOK n (fun si =>
      goldDateStep p fil dc ds de (dropnaStep sub (dupStep dup (selStep choose si)))) := by
  refine stepOK_comp n _ _ (stepOK_comp n _ _ (stepOK_comp n _ _ ?_ ?_) ?_) ?_
  · exact stepOK_iteF n _ _ _ (stepOK_id n) (stepOK_reAlloc n _)
  · exact stepOK_ite n dup (reAlloc (tab_gold_dedup true)) (stepOK_reAlloc n _)
  · exact stepOK_iteF n _ _ _ (stepOK_id n) (stepOK_reAlloc n _)
  · refine stepOK_iteF n _ _ _ ?_ (stepOK_id n)
    refine stepOK_comp n _ _ (stepOK_comp n _ _ ?_ ?_) ?_
    · exact stepOK_iteF n _ _ _ (stepOK_inPlace n _) (stepOK_id n)
    · exact stepOK_ite n _ (reAlloc (boundGE p dc ds)) (stepOK_reAlloc n _)
    · exact stepOK_ite n _ (reAlloc (boundLE p dc de)) (stepOK_reAlloc n _)

/-- Claim C7, as stated, is false on the code: the string-stripping
transformation (src/app.py lines 146-148) mutates its input table in
place rather than returning a new table — the table observed at the same
reference after the step differs from the one observed before it. -/
theorem strip_step_mutates_in_place :
    readRef ((stripStep true) ([dfPadded], 0)).1 0 ≠ readRef [dfPadded] 0 := by
  decide

/-- Claim C7 (amended): each pipeline stage starts from a fresh copy of
its input frame and only mutates frames it allocated itself, so every
frame that existed before the stage ran is unchanged afterwards — bronze
is never changed by the silver stage, and neither bronze nor silver by
the gold stage.  (The in-place steps — string stripping and the date
coercions — mutate the stage's own working copy, not upstream tables.) -/
theorem pipeline_preserves_preexisting_tables (ka ss dup fil : Bool)
    (p : Str → Option Int) (choose sub : List Str) (dc ds de : Str)
    (st : Store) (i k : Nat) (hk : k < st.length) :
    readRef (tab_silver_run ka ss p dc st i).1 k = readRef st k ∧
    readRef (tab_gold_run p choose sub dup fil dc ds de st i).1 k = readRef st k := by
  have hfirst : ∀ g : Store × Nat → Store × Nat, StepOK st.length g →
      readRef (g (reAlloc id (st, i))).1 k = readRef st k := by
    intro g hg
    have h0 : st.length ≤ (reAlloc id (st, i)).1.length := by
      show st.length ≤ (st ++ [id (readRef st i)]).length
      simp
    have h1 : st.length ≤ (reAlloc id (st, i)).2 := Nat.le_refl _
    obtain ⟨_, _, hpres⟩ := hg (reAlloc id (st, i)).1 (reAlloc id (st, i)).2 h0 h1
    rw [hpres k hk]
    exact readRef_append st _ k hk
  exact ⟨hfirst _ (stepOK_silver st.length ka ss p dc),
    hfirst _ (stepOK_gold st.length p choose sub dup fil dc ds de)⟩

/-- Witness for the amended claim C7 at a concrete one-frame store. -/
theorem pipeline_preserves_preexisting_tables_witness :
    readRef (tab_silver_run false true parse_ymd (pystr "a") [dfPadded] 0).1 0 =
      readRef [dfPadded] 0 ∧
    readRef (tab_gold_run parse_ymd [] [] true true (pystr "a") (pystr "")
        (pystr "") [dfPadded] 0).1 0 = readRef [dfPadded] 0 :=
  pipeline_preserves_preexisting_tables false true true true parse_ymd [] []
    (pystr "a") (pystr "") (pystr "") [dfPadded] 0 0 (by decide)
